import Mathlib

/-!
Verification development for the song-catalog service
(`crud.py`, `main.py`, `lyrics_fetcher.py`, `schemas.py`, `models.py`,
`mock_enrichment_service.py`).

The Python code is shallowly embedded as executable Lean definitions:

* song records are association lists from attribute names to dynamic
  values (`Record`), mirroring Python object attributes, with `hasattr`
  and `setattr` modelled faithfully;
* the SQLAlchemy store is a list of records; each CRUD function from
  `crud.py` becomes a pure function threading the store;
* the `cachetools.TTLCache` used by `lyrics_fetcher.py` is a list of
  entries carrying expiry instants, with read-time expiry checks and
  oldest-first eviction on insert;
* `fetch_lyrics` is embedded together with its exception structure: the
  gateway interaction is a `GatewayOutcome` oracle, the `try` body
  returns `Except PyExn`, and the `except` clauses are a total handler,
  so "no exception escapes" is a provable statement, not a typing
  artifact;
* session handles are allocation counters: `SessionLocal` hands out a
  fresh identifier, which lets freshness of the background task's
  session be stated.
-/

set_option autoImplicit false

namespace SongCatalog

/-- Dynamic values as stored on Python object attributes: integers,
strings, or `None`. -/
inductive PyVal where
  | pInt (n : Int)
  | pStr (s : String)
  | pNone
  deriving DecidableEq, Repr

/-- A song record, as a Python object: an association list from
attribute names to values (`models.Song` instances). -/
abbrev Record := List (String × PyVal)

/-- Attribute read, first binding wins (mirrors Python attribute
lookup on the embedded record). -/
def recLookup : Record → String → Option PyVal
  | [], _ => none
  | p :: rest, k => if p.1 = k then some p.2 else recLookup rest k

/-- Python `hasattr(obj, k)` on an embedded record. -/
def hasattrRec (r : Record) (k : String) : Bool :=
  (recLookup r k).isSome

/-- Python `setattr(obj, k, v)` on an embedded record: overwrite the
existing binding in place, or append a new one. -/
def setattrRec (r : Record) (k : String) (v : PyVal) : Record :=
  if hasattrRec r k then
    r.map (fun p => if p.1 = k then (k, v) else p)
  else
    r ++ [(k, v)]

/-- Embed an `Option Int` attribute value (Python `int` or `None`). -/
def optIntVal : Option Int → PyVal
  | some n => PyVal.pInt n
  | none => PyVal.pNone

/-- Embed an `Option String` attribute value (Python `str` or `None`). -/
def optStrVal : Option String → PyVal
  | some s => PyVal.pStr s
  | none => PyVal.pNone

/-- Constructor for a `models.Song` record with its nine mapped
columns (`id`, `title`, `artist`, `album`, `genre`, `release_year`,
`bpm`, `mood`, `enriched_genre`). -/
def mkSongRecord (songId : Int) (title artist album genre : String)
    (release_year : Int) (bpm : Option Int) (mood enriched_genre : Option String) : Record :=
  [("id", PyVal.pInt songId), ("title", PyVal.pStr title), ("artist", PyVal.pStr artist),
   ("album", PyVal.pStr album), ("genre", PyVal.pStr genre),
   ("release_year", PyVal.pInt release_year), ("bpm", optIntVal bpm),
   ("mood", optStrVal mood), ("enriched_genre", optStrVal enriched_genre)]

/-- The record store: the `songs` table reached through a SQLAlchemy
session. -/
abbrev Store := List Record

/-- Embeds `crud.get_song_by_id`: first record whose `id` column equals
`song_id`. -/
def get_song_by_id (db : Store) (song_id : Int) : Option Record :=
  db.find? (fun r => decide (recLookup r "id" = some (PyVal.pInt song_id)))

/-- Commit helper: the store after the record matching `song_id` has
been mutated in place to `updated` (SQLAlchemy tracks the mutated ORM
object, so commit rewrites that row). -/
def replaceSong (db : Store) (song_id : Int) (updated : Record) : Store :=
  match db with
  | [] => []
  | r :: rest =>
      if recLookup r "id" = some (PyVal.pInt song_id) then updated :: rest
      else r :: replaceSong rest song_id updated

/-- Embeds the update loop of `crud.update_song_metadata`: for each
`(key, value)` in the mapping, write the attribute when
`hasattr(db_song, key)` holds, otherwise skip it (warning only). -/
def applyMetadataLoop (r : Record) (metadata : List (String × PyVal)) : Record :=
  metadata.foldl (fun acc p => if hasattrRec acc p.1 then setattrRec acc p.1 p.2 else acc) r

/-- Embeds `crud.update_song_metadata`: look the song up, run the
guarded attribute loop, commit; `None` when the song is missing.
Returns the function result together with the store after commit. -/
def update_song_metadata (db : Store) (song_id : Int)
    (metadata : List (String × PyVal)) : Option Record × Store :=
  match get_song_by_id db song_id with
  | some db_song =>
      let updated := applyMetadataLoop db_song metadata
      (some updated, replaceSong db song_id updated)
  | none => (none, db)

/-- The metadata schema fields named by the specification: `bpm`,
`mood`, `enriched_genre` (`models.py` enriched-metadata columns). -/
def metadataSchemaFields : List String := ["bpm", "mood", "enriched_genre"]

/-- Last value written for key `k` by a field mapping (later entries
win, as in the Python update loop). -/
def lastWrite (m : List (String × PyVal)) (k : String) : Option PyVal :=
  m.foldl (fun acc p => if p.1 = k then some p.2 else acc) none

/-- A concrete store with one song, used for concrete evaluations. -/
def demoStore : Store :=
  [mkSongRecord 1 "Song" "Artist" "Album" "Rock" 2000 none none none]

/-- The enrichment mapping of the specification example, with one
unknown field. -/
def exampleMapping : List (String × PyVal) :=
  [("bpm", PyVal.pInt 144), ("mood", PyVal.pStr "Epic"),
   ("enriched_genre", PyVal.pStr "Progressive Rock"), ("unknown_field", PyVal.pStr "x")]

/-- Configuration constant `CACHE_TTL_SECONDS` from `lyrics_fetcher.py`. -/
def CACHE_TTL_SECONDS : Nat := 60 * 10

/-- Configuration constant `CACHE_MAX_SIZE` from `lyrics_fetcher.py`. -/
def CACHE_MAX_SIZE : Nat := 500

/-- One stored cache item of the `cachetools.TTLCache`: key, value and
the absolute expiry instant (insertion time plus ttl). -/
structure CacheEntry where
  key : String
  value : String
  expires : Nat
  deriving DecidableEq, Repr

/-- The `cachetools.TTLCache` state: capacity, ttl, and the stored
entries in insertion order (oldest first). -/
structure TTLCache where
  maxsize : Nat
  ttl : Nat
  entries : List CacheEntry
  deriving DecidableEq, Repr

/-- The module-level `lyrics_cache = TTLCache(maxsize=500, ttl=600)`. -/
def lyrics_cache : TTLCache :=
  { maxsize := CACHE_MAX_SIZE, ttl := CACHE_TTL_SECONDS, entries := [] }

/-- Cache read (`cache_key in lyrics_cache` followed by indexing):
the stored value is returned only while `now` is before the entry's
expiry instant; an expired entry answers absent even though it is
still physically stored. -/
def cacheGet (c : TTLCache) (k : String) (now : Nat) : Option String :=
  match c.entries.find? (fun e => decide (e.key = k)) with
  | some e => if now < e.expires then some e.value else none
  | none => none

/-- Cache write (`lyrics_cache[cache_key] = lyrics`): sweep expired
entries, drop any previous binding of the key, evict oldest-inserted
entries if the capacity would be exceeded, then append the new entry
with expiry `now + ttl`. -/
def cachePut (c : TTLCache) (k v : String) (now : Nat) : TTLCache :=
  let live := c.entries.filter (fun e => decide (now < e.expires))
  let without := live.filter (fun e => decide (e.key ≠ k))
  let kept :=
    if c.maxsize ≤ without.length then without.drop (without.length + 1 - c.maxsize)
    else without
  { c with entries := kept ++ [{ key := k, value := v, expires := now + c.ttl }] }

/-- Python `str.strip()` on the character list: drop whitespace from
both ends. -/
def pyStrip (s : List Char) : List Char :=
  (((s.dropWhile Char.isWhitespace).reverse.dropWhile Char.isWhitespace)).reverse

/-- Normalization from `fetch_lyrics`: `s.strip().lower()`. -/
def normalizeField (s : String) : String :=
  String.mk ((pyStrip s.data).map Char.toLower)

/-- Cache-key construction from `fetch_lyrics`:
the normalized artist and title joined by a dash. -/
def cacheKey (artist title : String) : String :=
  normalizeField artist ++ "-" ++ normalizeField title

/-- Outcome of one interaction with the external lyrics gateway, as
observed inside the `try` block of `fetch_lyrics`: a decoded JSON body
with a `lyrics` key, an `error` key, or neither, or one of the raised
exceptions (`raise_for_status`, connection, timeout, other request
errors, JSON decoding). -/
inductive GatewayOutcome where
  | respLyrics (text : String)
  | respError (msg : String)
  | respOther
  | raiseHTTP (status : Nat)
  | raiseConn
  | raiseTimeout
  | raiseRequest
  | raiseJSON
  deriving DecidableEq, Repr

/-- The exception types the body of `fetch_lyrics` can raise, matching
the `except` clauses in the source. -/
inductive PyExn where
  | httpError (status : Nat)
  | connectionError
  | timeoutError
  | requestException
  | valueError
  deriving DecidableEq, Repr

/-- The `try` body of `fetch_lyrics` after a cache miss: perform the
gateway call and branch on the decoded body; raised exceptions appear
as `Except.error`. On the `lyrics` branch the cache is written. -/
def tryFetchBody (key : String) (cache : TTLCache) (now : Nat)
    (gw : GatewayOutcome) : Except PyExn (Option String × TTLCache) :=
  match gw with
  | GatewayOutcome.respLyrics text => Except.ok (some text, cachePut cache key text now)
  | GatewayOutcome.respError _ => Except.ok (none, cache)
  | GatewayOutcome.respOther => Except.ok (none, cache)
  | GatewayOutcome.raiseHTTP status => Except.error (PyExn.httpError status)
  | GatewayOutcome.raiseConn => Except.error PyExn.connectionError
  | GatewayOutcome.raiseTimeout => Except.error PyExn.timeoutError
  | GatewayOutcome.raiseRequest => Except.error PyExn.requestException
  | GatewayOutcome.raiseJSON => Except.error PyExn.valueError

/-- The `except` clauses of `fetch_lyrics`: every exception type the
body can raise is caught, logged and converted to `None`. -/
def handleFetchExn (e : PyExn) : Option String :=
  match e with
  | PyExn.httpError _ => none
  | PyExn.connectionError => none
  | PyExn.timeoutError => none
  | PyExn.requestException => none
  | PyExn.valueError => none

/-- Decidable equality for `Except`, so concrete runs of the embedded
functions can be checked by `decide`. -/
instance exceptDecEq {e a : Type} [DecidableEq e] [DecidableEq a] :
    DecidableEq (Except e a) := fun x y =>
  match x, y with
  | Except.ok v, Except.ok w =>
      if h : v = w then Decidable.isTrue (by rw [h])
      else Decidable.isFalse (by intro hc; cases hc; exact h rfl)
  | Except.error v, Except.error w =>
      if h : v = w then Decidable.isTrue (by rw [h])
      else Decidable.isFalse (by intro hc; cases hc; exact h rfl)
  | Except.ok _, Except.error _ => Decidable.isFalse (by intro hc; cases hc)
  | Except.error _, Except.ok _ => Decidable.isFalse (by intro hc; cases hc)

/-- Observable result of one `fetch_lyrics` call: the returned
`Optional[str]`, the cache state afterwards, and how many times the
external gateway was invoked during the call. -/
structure FetchResult where
  lyrics : Option String
  cache : TTLCache
  gatewayCalls : Nat
  deriving DecidableEq, Repr

/-- Embeds `lyrics_fetcher.fetch_lyrics`: normalize, consult the cache,
and only on a miss enter the guarded gateway interaction. The result
type still allows `Except.error` so that "no exception escapes the
function" is a provable property rather than a typing artifact. -/
def fetch_lyrics (artist title : String) (cache : TTLCache) (now : Nat)
    (gw : GatewayOutcome) : Except PyExn FetchResult :=
  let key := cacheKey artist title
  match cacheGet cache key now with
  | some lyrics => Except.ok { lyrics := some lyrics, cache := cache, gatewayCalls := 0 }
  | none =>
      match tryFetchBody key cache now gw with
      | Except.ok r => Except.ok { lyrics := r.1, cache := r.2, gatewayCalls := 1 }
      | Except.error e =>
          Except.ok { lyrics := handleFetchExn e, cache := cache, gatewayCalls := 1 }

/-- The Pydantic `schemas.Song` model: the complete song schema used
as PUT body; `bpm`, `mood`, `enriched_genre` default to absent. -/
structure SongSchema where
  id : Int
  title : String
  artist : String
  album : String
  genre : String
  release_year : Int
  bpm : Option Int := none
  mood : Option String := none
  enriched_genre : Option String := none
  deriving DecidableEq, Repr

/-- Pydantic `.dict()` on a `schemas.Song` value: every declared field,
including the defaulted metadata fields. -/
def songSchemaDict (s : SongSchema) : List (String × PyVal) :=
  [("id", PyVal.pInt s.id), ("title", PyVal.pStr s.title), ("artist", PyVal.pStr s.artist),
   ("album", PyVal.pStr s.album), ("genre", PyVal.pStr s.genre),
   ("release_year", PyVal.pInt s.release_year), ("bpm", optIntVal s.bpm),
   ("mood", optStrVal s.mood), ("enriched_genre", optStrVal s.enriched_genre)]

/-- Embeds `crud.update_existing_song` (full replacement): look the
song up and unconditionally `setattr` every entry of the complete
schema dictionary, then commit. -/
def update_existing_song (db : Store) (song_id : Int)
    (updated_song_data : SongSchema) : Option Record × Store :=
  match get_song_by_id db song_id with
  | some db_song =>
      let updated :=
        (songSchemaDict updated_song_data).foldl (fun acc p => setattrRec acc p.1 p.2) db_song
      (some updated, replaceSong db song_id updated)
  | none => (none, db)

/-- Observable result of one run of the background enrichment task:
the store afterwards, the number of enrichment-gateway calls, the
number of store write transactions, whether a failure was logged, and
which session handle the task used for its store operations. -/
structure TaskResult where
  store : Store
  gatewayCalls : Nat
  storeWrites : Nat
  errorLogged : Bool
  sessionUsed : Nat
  deriving DecidableEq, Repr

/-- Embeds `main.enrich_song_metadata_task`: look the song up with the
session `db` the task was given; abort (log-only) when it is missing;
otherwise call the enrichment gateway once, and on a metadata mapping
commit it through `crud.update_song_metadata` as a single write. The
gateway is the oracle `gw : Option (List (String × PyVal))`, matching
`fetch_mock_metadata` returning a mapping or `None`. -/
def enrich_song_metadata_task (song_id : Int) (db : Nat) (store : Store)
    (gw : Option (List (String × PyVal))) : TaskResult :=
  match get_song_by_id store song_id with
  | none =>
      { store := store, gatewayCalls := 0, storeWrites := 0,
        errorLogged := true, sessionUsed := db }
  | some _ =>
      match gw with
      | some enriched_data =>
          let res := update_song_metadata store song_id enriched_data
          { store := res.2, gatewayCalls := 1,
            storeWrites := if res.1.isSome then 1 else 0,
            errorLogged := res.1.isNone, sessionUsed := db }
      | none =>
          { store := store, gatewayCalls := 1, storeWrites := 0,
            errorLogged := false, sessionUsed := db }

/-- A session factory call `SessionLocal()`: sessions are identified
by allocation order, so the factory returns the next fresh identifier
together with the advanced allocator. -/
def SessionLocal (alloc : Nat) : Nat × Nat := (alloc, alloc + 1)

/-- The arguments handed to `background_tasks.add_task(...)`:
the song id and the session the task will use. -/
structure BackgroundTaskCall where
  song_id : Int
  db : Nat
  deriving DecidableEq, Repr

/-- Result of `main.enrich_metadata_endpoint`: 202 with a scheduled
task, or 404 when the song does not exist at schedule time. -/
inductive EndpointResult where
  | accepted (task : BackgroundTaskCall)
  | notFound
  deriving DecidableEq, Repr

/-- Embeds `main.enrich_metadata_endpoint`: check existence with the
request-scoped session `reqDb`, then schedule the task passing a
session obtained from a fresh `SessionLocal()` call, never `reqDb`
itself. Returns the endpoint outcome and the advanced allocator. -/
def enrich_metadata_endpoint (song_id : Int) (store : Store) (_reqDb : Nat)
    (alloc : Nat) : EndpointResult × Nat :=
  match get_song_by_id store song_id with
  | none => (EndpointResult.notFound, alloc)
  | some _ =>
      let fresh := SessionLocal alloc
      (EndpointResult.accepted { song_id := song_id, db := fresh.1 }, fresh.2)

/-- A fold of puts over an operation list (key, value, time). -/
def putsFold (c : TTLCache) (ops : List (String × String × Nat)) : TTLCache :=
  ops.foldl (fun acc op => cachePut acc op.1 op.2.1 op.2.2) c

/-- The gateway failure modes of the specification taxonomy: HTTP
error statuses, connection errors, timeouts, other request errors,
undecodable bodies, and responses of unexpected shape. The recognized
bodies (`lyrics`, `error`) are not failures. -/
def isUpstreamFailure : GatewayOutcome → Bool
  | GatewayOutcome.raiseHTTP _ => true
  | GatewayOutcome.raiseConn => true
  | GatewayOutcome.raiseTimeout => true
  | GatewayOutcome.raiseRequest => true
  | GatewayOutcome.raiseJSON => true
  | GatewayOutcome.respOther => true
  | GatewayOutcome.respLyrics _ => false
  | GatewayOutcome.respError _ => false

/-- A small concrete cache at capacity with two live entries, used to
exercise the eviction path on concrete input. -/
def demoCache : TTLCache :=
  { maxsize := 2, ttl := 600,
    entries := [CacheEntry.mk "a" "1" 700, CacheEntry.mk "b" "2" 700] }

/-- A concrete store holding one song whose enriched metadata is
already present. -/
def enrichedStore : Store :=
  [mkSongRecord 7 "Imagine" "John Lennon" "Imagine" "Rock" 1971
    (some 75) (some "Peaceful") (some "Soft Rock")]

/-- A concrete complete PUT body for song 7 that does not restate the
enriched metadata fields, which therefore default to absent. -/
def putBody : SongSchema :=
  { id := 7, title := "Imagine", artist := "John Lennon", album := "Imagine",
    genre := "Rock", release_year := 1971 }

/-! Helper lemmas about the embedded cache. -/

/-- Writing never changes the configured ttl. -/
theorem cachePut_ttl (c : TTLCache) (k v : String) (t : Nat) :
    (cachePut c k v t).ttl = c.ttl := rfl

/-- Writing never changes the configured capacity. -/
theorem cachePut_maxsize (c : TTLCache) (k v : String) (t : Nat) :
    (cachePut c k v t).maxsize = c.maxsize := rfl

/-- After a put, the first entry found for the key is the freshly
inserted one: everything kept in front of it has a different key. -/
theorem find?_entries_cachePut (c : TTLCache) (k v : String) (t : Nat) :
    (cachePut c k v t).entries.find? (fun e => decide (e.key = k)) =
      some (CacheEntry.mk k v (t + c.ttl)) := by
  have hkept :
      ∀ l : List CacheEntry, (∀ e ∈ l, e.key ≠ k) →
        (l ++ [CacheEntry.mk k v (t + c.ttl)]).find? (fun e => decide (e.key = k)) =
          some (CacheEntry.mk k v (t + c.ttl)) := by
    intro l hl
    induction l with
    | nil => simp [List.find?]
    | cons a rest ih =>
        have hak : a.key ≠ k := hl a (List.mem_cons_self a rest)
        rw [List.cons_append, List.find?_cons]
        simp only [hak, decide_False]
        exact ih (fun e he => hl e (List.mem_cons_of_mem a he))
  simp only [cachePut]
  apply hkept
  intro e he
  have heB : e ∈ (c.entries.filter (fun x => decide (t < x.expires))).filter
      (fun x => decide (x.key ≠ k)) := by
    split at he
    · exact List.mem_of_mem_drop he
    · exact he
  have := (List.mem_filter.mp heB).2
  simpa using this

/-- Core read-after-write fact: a key written at `t` reads back its
value strictly before `t + ttl` and reads back absent from `t + ttl`
on, regardless of the previous cache contents. -/
theorem cacheGet_cachePut_self (c : TTLCache) (k v : String) (t q : Nat) :
    cacheGet (cachePut c k v t) k q = if q < t + c.ttl then some v else none := by
  unfold cacheGet
  rw [find?_entries_cachePut]

/-- The freshly written entry is physically stored. -/
theorem cachePut_mem_self (c : TTLCache) (k v : String) (t : Nat) :
    ({ key := k, value := v, expires := t + c.ttl } : CacheEntry) ∈
      (cachePut c k v t).entries := by
  unfold cachePut
  simp

/-- Capacity is enforced by a single put unconditionally: the result
holds at most `maxsize` entries whenever `maxsize` is positive. -/
theorem cachePut_length_le (c : TTLCache) (k v : String) (t : Nat)
    (h : 1 ≤ c.maxsize) : (cachePut c k v t).entries.length ≤ c.maxsize := by
  unfold cachePut
  simp only [List.length_append, List.length_cons, List.length_nil]
  split
  · rename_i hcap
    rw [List.length_drop]
    omega
  · rename_i hcap
    omega

/-- A key that reads absent keeps reading absent at any later time if
the cache is not written in between: entries only age. -/
theorem cacheGet_none_mono (c : TTLCache) (k : String) (t1 t2 : Nat)
    (h12 : t1 ≤ t2) (h : cacheGet c k t1 = none) : cacheGet c k t2 = none := by
  unfold cacheGet at h ⊢
  cases hf : c.entries.find? (fun e => decide (e.key = k)) with
  | none => rfl
  | some e =>
      rw [hf] at h
      have h2 : (if t1 < e.expires then some e.value else none) = none := h
      have he : ¬ t1 < e.expires := by
        by_contra hc
        rw [if_pos hc] at h2
        cases h2
      show (if t2 < e.expires then some e.value else none) = none
      rw [if_neg (by omega)]

/-- Eviction shape at capacity: when every stored entry is live, the
key is new, and the cache is exactly full, a put drops the
oldest-inserted entry and appends the new one. -/
theorem cachePut_at_capacity (c : TTLCache) (k v : String) (t : Nat)
    (hfresh : ∀ e ∈ c.entries, e.key ≠ k)
    (hlive : ∀ e ∈ c.entries, t < e.expires)
    (hcap : c.entries.length = c.maxsize) :
    (cachePut c k v t).entries =
      c.entries.drop 1 ++ [{ key := k, value := v, expires := t + c.ttl }] := by
  unfold cachePut
  have h1 : c.entries.filter (fun e => decide (t < e.expires)) = c.entries :=
    List.filter_eq_self.mpr (fun e he => by simpa using hlive e he)
  have h2 : c.entries.filter (fun e => decide (e.key ≠ k)) = c.entries :=
    List.filter_eq_self.mpr (fun e he => by simpa using hfresh e he)
  simp only [h1, h2]
  rw [if_pos (by omega)]
  congr 1
  congr 1
  omega

/-- Any sequence of puts keeps the entry count within capacity. -/
theorem putsFold_length_le (ops : List (String × String × Nat)) (c : TTLCache)
    (hpos : 1 ≤ c.maxsize) (hlen : c.entries.length ≤ c.maxsize) :
    (putsFold c ops).entries.length ≤ (putsFold c ops).maxsize := by
  induction ops generalizing c with
  | nil => simpa [putsFold]
  | cons op rest ih =>
      have hstep := cachePut_length_le c op.1 op.2.1 op.2.2 hpos
      have hmax : (cachePut c op.1 op.2.1 op.2.2).maxsize = c.maxsize :=
        cachePut_maxsize c op.1 op.2.1 op.2.2
      have := ih (cachePut c op.1 op.2.1 op.2.2) (by omega) (by omega)
      simpa [putsFold] using this

/-! Helper lemmas about records and attribute updates. -/

/-- Attribute lookup distributes over append, first list first. -/
theorem recLookup_append (r r2 : Record) (k : String) :
    recLookup (r ++ r2) k = (recLookup r k).or (recLookup r2 k) := by
  induction r with
  | nil => simp [recLookup]
  | cons p rest ih =>
      by_cases hp : p.1 = k <;> simp [recLookup, hp, ih]

/-- In-place overwrite of an existing key: reading that key afterwards
gives the new value (when the key was present). -/
theorem recLookup_map_set (r : Record) (k : String) (v : PyVal) :
    recLookup (r.map (fun p => if p.1 = k then (k, v) else p)) k =
      if hasattrRec r k then some v else none := by
  induction r with
  | nil => simp [recLookup, hasattrRec]
  | cons p rest ih =>
      by_cases hp : p.1 = k
      · simp [recLookup, hasattrRec, hp]
      · simp only [List.map_cons, if_neg hp]
        simp only [recLookup, if_neg hp, ih, hasattrRec]

/-- In-place overwrite of one key leaves every other key unchanged. -/
theorem recLookup_map_set_other (r : Record) (k kk : String) (v : PyVal)
    (h : kk ≠ k) :
    recLookup (r.map (fun p => if p.1 = k then (k, v) else p)) kk = recLookup r kk := by
  induction r with
  | nil => simp [recLookup]
  | cons p rest ih =>
      by_cases hp : p.1 = k
      · have h1 : ¬ (k = kk) := fun e => h e.symm
        have h2 : ¬ (p.1 = kk) := by rw [hp]; exact h1
        simp only [List.map_cons, if_pos hp]
        rw [recLookup, if_neg h1, recLookup, if_neg h2, ih]
      · simp only [List.map_cons, if_neg hp]
        rw [recLookup, recLookup]
        by_cases hpk : p.1 = kk
        · rw [if_pos hpk, if_pos hpk]
        · rw [if_neg hpk, if_neg hpk, ih]

/-- Python `setattr` then read of the same attribute: the new value. -/
theorem setattrRec_lookup_self (r : Record) (k : String) (v : PyVal) :
    recLookup (setattrRec r k v) k = some v := by
  unfold setattrRec
  by_cases h : hasattrRec r k
  · rw [if_pos h, recLookup_map_set, if_pos h]
  · rw [if_neg h, recLookup_append]
    have hnone : recLookup r k = none := by
      unfold hasattrRec at h
      cases hr : recLookup r k
      · rfl
      · rw [hr] at h; cases h rfl
    rw [hnone]
    simp [recLookup]

/-- Python `setattr` leaves every other attribute unchanged. -/
theorem setattrRec_lookup_other (r : Record) (k kk : String) (v : PyVal)
    (h : kk ≠ k) :
    recLookup (setattrRec r k v) kk = recLookup r kk := by
  unfold setattrRec
  by_cases hh : hasattrRec r k
  · rw [if_pos hh, recLookup_map_set_other r k kk v h]
  · rw [if_neg hh, recLookup_append]
    have hk : ¬ (k = kk) := fun e => h e.symm
    have hsingle : recLookup [(k, v)] kk = none := by
      simp [recLookup, hk]
    rw [hsingle]
    cases recLookup r kk <;> rfl

/-- Absorption for first-wins choice on options. -/
theorem or_some_absorb {α : Type} (a : Option α) (v : α) (b : Option α) :
    (a.or (some v)).or b = a.or (some v) := by
  cases a <;> rfl

/-- Choice with absent right argument. -/
theorem or_none_right {α : Type} (a : Option α) : a.or none = a := by
  cases a <;> rfl

/-- Folding the last-write accumulator from an arbitrary start. -/
theorem lastWrite_from (m : List (String × PyVal)) (k : String) (acc : Option PyVal) :
    m.foldl (fun a p => if p.1 = k then some p.2 else a) acc = (lastWrite m k).or acc := by
  induction m generalizing acc with
  | nil => simp [lastWrite]
  | cons p rest ih =>
      rw [lastWrite, List.foldl_cons, List.foldl_cons, ih, ih]
      by_cases hp : p.1 = k
      · rw [if_pos hp, if_pos hp, or_some_absorb]
      · rw [if_neg hp, if_neg hp, or_none_right]

/-- Unfolding `lastWrite` over a head entry: later entries win. -/
theorem lastWrite_cons (p : String × PyVal) (m : List (String × PyVal)) (k : String) :
    lastWrite (p :: m) k = (lastWrite m k).or (if p.1 = k then some p.2 else none) := by
  rw [lastWrite, List.foldl_cons, lastWrite_from]

/-- `setattr` of an attribute that already exists never changes which
attributes exist. -/
theorem setattrRec_hasattr (r : Record) (k kk : String) (v : PyVal)
    (h : hasattrRec r k = true) :
    hasattrRec (setattrRec r k v) kk = hasattrRec r kk := by
  by_cases hkk : kk = k
  · subst hkk
    rw [hasattrRec, setattrRec_lookup_self]
    exact h.symm
  · rw [hasattrRec, setattrRec_lookup_other r k kk v hkk, hasattrRec]

/-- Full characterization of the guarded metadata loop of
`crud.update_song_metadata`: a key that exists on the record receives
the last value written for it by the mapping (or keeps its old value),
and a key that does not exist on the record is left untouched. -/
theorem applyMetadataLoop_lookup (m : List (String × PyVal)) (r : Record) (k : String) :
    recLookup (applyMetadataLoop r m) k =
      if hasattrRec r k then (lastWrite m k).or (recLookup r k) else recLookup r k := by
  induction m generalizing r with
  | nil =>
      rw [applyMetadataLoop, List.foldl_nil, lastWrite, List.foldl_nil]
      by_cases h : hasattrRec r k
      · rw [if_pos h]; rfl
      · rw [if_neg h]
  | cons p rest ih =>
      rw [applyMetadataLoop, List.foldl_cons, lastWrite_cons]
      by_cases ha : hasattrRec r p.1
      · rw [if_pos ha]
        have hstep := ih (setattrRec r p.1 p.2)
        rw [applyMetadataLoop] at hstep
        rw [hstep, setattrRec_hasattr r p.1 k p.2 ha]
        by_cases hp : p.1 = k
        · subst hp
          rw [if_pos ha, setattrRec_lookup_self, if_pos rfl, or_some_absorb, if_pos ha]
        · rw [setattrRec_lookup_other r p.1 k p.2 (fun e => hp e.symm),
            if_neg hp, or_none_right]
      · rw [if_neg ha]
        have hstep := ih r
        rw [applyMetadataLoop] at hstep
        rw [hstep]
        by_cases hp : p.1 = k
        · subst hp
          rw [if_neg ha, if_neg ha]
        · rw [if_neg hp, or_none_right]

/-- Full characterization of the unconditional `setattr` fold of
`crud.update_existing_song`: every key receives the last value written
for it by the dictionary, other keys keep their old value. -/
theorem setattrFold_lookup (m : List (String × PyVal)) (r : Record) (k : String) :
    recLookup (m.foldl (fun acc p => setattrRec acc p.1 p.2) r) k =
      (lastWrite m k).or (recLookup r k) := by
  induction m generalizing r with
  | nil => rw [List.foldl_nil, lastWrite, List.foldl_nil]; rfl
  | cons p rest ih =>
      rw [List.foldl_cons, ih, lastWrite_cons]
      by_cases hp : p.1 = k
      · subst hp
        rw [setattrRec_lookup_self, if_pos rfl, or_some_absorb]
      · rw [setattrRec_lookup_other r p.1 k p.2 (fun e => hp e.symm),
          if_neg hp, or_none_right]

/-- A record attribute that is absent reads as `none`. -/
theorem hasattrRec_false_lookup (r : Record) (k : String)
    (h : hasattrRec r k = false) : recLookup r k = none := by
  unfold hasattrRec at h
  cases hr : recLookup r k
  · rfl
  · rw [hr] at h; cases h

/-- Folding puts never changes the configured capacity. -/
theorem putsFold_maxsize (ops : List (String × String × Nat)) (c : TTLCache) :
    (putsFold c ops).maxsize = c.maxsize := by
  induction ops generalizing c with
  | nil => rfl
  | cons op rest ih =>
      have h := ih (cachePut c op.1 op.2.1 op.2.2)
      simpa [putsFold] using h

/-- On a cache miss, `fetch_lyrics` always returns normally and
performs exactly one gateway call, whatever the gateway outcome. -/
theorem fetch_lyrics_miss_gateway (artist title : String) (cache : TTLCache)
    (now : Nat) (gw : GatewayOutcome)
    (h : cacheGet cache (cacheKey artist title) now = none) :
    ∃ r, fetch_lyrics artist title cache now gw = Except.ok r ∧ r.gatewayCalls = 1 := by
  simp only [fetch_lyrics]
  rw [h]
  cases hb : tryFetchBody (cacheKey artist title) cache now gw with
  | ok p => exact ⟨_, rfl, rfl⟩
  | error e => exact ⟨_, rfl, rfl⟩

/-! Claim theorems. -/

/-- C3: for a key put into the TTL cache at time `t` with the cache
ttl `T`, a read at any query time in `[t, t+T)` returns the stored
value and a read at any query time `≥ t+T` returns absent, even though
the entry is still physically stored at that time. -/
theorem cache_ttl_read_window (c : TTLCache) (k v : String) (t q : Nat) :
    (t ≤ q ∧ q < t + c.ttl → cacheGet (cachePut c k v t) k q = some v) ∧
    (t + c.ttl ≤ q →
      cacheGet (cachePut c k v t) k q = none ∧
      CacheEntry.mk k v (t + c.ttl) ∈ (cachePut c k v t).entries) := by
  constructor
  · intro hq
    rw [cacheGet_cachePut_self, if_pos hq.2]
  · intro hge
    refine ⟨?_, cachePut_mem_self c k v t⟩
    rw [cacheGet_cachePut_self, if_neg (by omega)]

/-- C3 witness: concrete put into the lyrics cache at time 0, read
back at time 5 and at time 600 (the ttl is 600 seconds). -/
theorem cache_ttl_read_window_witness :
    cacheGet (cachePut lyrics_cache "sting-shape of my heart" "Lyrics" 0)
        "sting-shape of my heart" 5 = some "Lyrics" ∧
    cacheGet (cachePut lyrics_cache "sting-shape of my heart" "Lyrics" 0)
        "sting-shape of my heart" 600 = none :=
  ⟨(cache_ttl_read_window lyrics_cache "sting-shape of my heart" "Lyrics" 0 5).1
      (by decide),
   ((cache_ttl_read_window lyrics_cache "sting-shape of my heart" "Lyrics" 0 600).2
      (by decide)).1⟩

/-- C4: after every finite sequence of puts the cache holds at most
`maxsize` entries; and a put of a new key into an exactly-full cache
of live entries evicts the oldest-inserted entry before inserting the
new one. -/
theorem cache_capacity_bound (c : TTLCache) (ops : List (String × String × Nat))
    (hpos : 1 ≤ c.maxsize) (hlen : c.entries.length ≤ c.maxsize) :
    (putsFold c ops).entries.length ≤ c.maxsize ∧
    (∀ k v t, (∀ e ∈ c.entries, e.key ≠ k) → (∀ e ∈ c.entries, t < e.expires) →
      c.entries.length = c.maxsize →
      (cachePut c k v t).entries =
        c.entries.drop 1 ++ [CacheEntry.mk k v (t + c.ttl)]) := by
  constructor
  · have h := putsFold_length_le ops c hpos hlen
    rw [putsFold_maxsize] at h
    exact h
  · intro k v t hfresh hlive hcap
    exact cachePut_at_capacity c k v t hfresh hlive hcap

/-- C4 witness: one put over the concrete full cache stays within
capacity, and a put of the new key `c` evicts the oldest entry `a`. -/
theorem cache_capacity_bound_witness :
    (putsFold demoCache [("x", "y", 0)]).entries.length ≤ demoCache.maxsize ∧
    (cachePut demoCache "c" "3" 0).entries =
      demoCache.entries.drop 1 ++ [CacheEntry.mk "c" "3" (0 + demoCache.ttl)] :=
  ⟨(cache_capacity_bound demoCache [("x", "y", 0)] (by decide) (by decide)).1,
   (cache_capacity_bound demoCache [("x", "y", 0)] (by decide) (by decide)).2
      "c" "3" 0 (by decide) (by decide) (by decide)⟩

/-- C8: the enrichment task for a song id that is not in the store
aborts right after the existence check: the store is unchanged, zero
gateway calls and zero writes happen, and only a failure is logged. -/
theorem enrich_task_nonexistent_song (song_id : Int) (db : Nat) (store : Store)
    (gw : Option (List (String × PyVal)))
    (h : get_song_by_id store song_id = none) :
    enrich_song_metadata_task song_id db store gw =
      TaskResult.mk store 0 0 true db := by
  unfold enrich_song_metadata_task
  rw [h]

/-- C8 witness: running the task for song 42 against an empty store
with a gateway that would return the example mapping. -/
theorem enrich_task_nonexistent_song_witness :
    enrich_song_metadata_task 42 3 [] (some exampleMapping) =
      TaskResult.mk [] 0 0 true 3 :=
  enrich_task_nonexistent_song 42 3 [] (some exampleMapping) (by decide)

/-- C2: when the enrichment endpoint schedules a task, the session it
hands to the task comes from a fresh `SessionLocal()` call, so it is
distinct from the request-scoped session; and the task performs its
store operations through exactly the session it is given, never the
request handle. -/
theorem enrich_task_private_session (song_id : Int) (store : Store)
    (reqDb alloc : Nat) (task : BackgroundTaskCall) (alloc2 : Nat)
    (hreq : reqDb < alloc)
    (h : enrich_metadata_endpoint song_id store reqDb alloc =
      (EndpointResult.accepted task, alloc2)) :
    task.db ≠ reqDb ∧
    ∀ (store2 : Store) (gw : Option (List (String × PyVal))),
      (enrich_song_metadata_task task.song_id task.db store2 gw).sessionUsed = task.db := by
  constructor
  · have hdb : task.db = alloc := by
      unfold enrich_metadata_endpoint at h
      cases hf : get_song_by_id store song_id with
      | none =>
          rw [hf] at h
          have hfst := congrArg Prod.fst h
          exact absurd hfst (by simp)
      | some s =>
          rw [hf] at h
          have hfst := congrArg Prod.fst h
          have h2 : EndpointResult.accepted (BackgroundTaskCall.mk song_id alloc) =
              EndpointResult.accepted task := hfst
          injection h2 with h3
          rw [← h3]
    omega
  · intro store2 gw
    unfold enrich_song_metadata_task
    cases hsome : get_song_by_id store2 task.song_id with
    | none => rfl
    | some s =>
        cases gw with
        | some m => rfl
        | none => rfl

/-- C2 witness: request session 0, allocator at 1; the endpoint
schedules the task with session 1, and the task uses session 1. -/
theorem enrich_task_private_session_witness :
    (BackgroundTaskCall.mk 1 1).db ≠ 0 ∧
    (enrich_song_metadata_task (BackgroundTaskCall.mk 1 1).song_id
        (BackgroundTaskCall.mk 1 1).db demoStore none).sessionUsed =
      (BackgroundTaskCall.mk 1 1).db :=
  (fun hmain => ⟨hmain.1, hmain.2 demoStore none⟩)
    (enrich_task_private_session 1 demoStore 0 1 (BackgroundTaskCall.mk 1 1) 2
      (by decide) (by decide))

/-- C5: if the first resolve call misses the cache and the gateway
answers with lyrics text, an immediately following resolve for the
same artist and title within the ttl returns that text from the cache
and invokes the gateway zero times, whatever the gateway would answer
on a second call. -/
theorem resolve_second_call_cached (artist title : String) (cache : TTLCache)
    (t1 t2 : Nat) (text : String) (gw2 : GatewayOutcome)
    (hmiss : cacheGet cache (cacheKey artist title) t1 = none)
    (hwin : t2 < t1 + cache.ttl) :
    fetch_lyrics artist title cache t1 (GatewayOutcome.respLyrics text) =
      Except.ok (FetchResult.mk (some text)
        (cachePut cache (cacheKey artist title) text t1) 1) ∧
    fetch_lyrics artist title (cachePut cache (cacheKey artist title) text t1) t2 gw2 =
      Except.ok (FetchResult.mk (some text)
        (cachePut cache (cacheKey artist title) text t1) 0) := by
  constructor
  · simp only [fetch_lyrics]
    rw [hmiss]
    rfl
  · simp only [fetch_lyrics]
    have hhit : cacheGet (cachePut cache (cacheKey artist title) text t1)
        (cacheKey artist title) t2 = some text := by
      rw [cacheGet_cachePut_self, if_pos hwin]
    rw [hhit]

/-- C5 witness: first call at time 0 fetches and caches, second call
at time 1 with a gateway that would raise a connection error is served
from the cache with zero gateway calls. -/
theorem resolve_second_call_cached_witness :
    fetch_lyrics "Sting" "Shape Of My Heart" lyrics_cache 0
        (GatewayOutcome.respLyrics "Lyrics") =
      Except.ok (FetchResult.mk (some "Lyrics")
        (cachePut lyrics_cache (cacheKey "Sting" "Shape Of My Heart") "Lyrics" 0) 1) ∧
    fetch_lyrics "Sting" "Shape Of My Heart"
        (cachePut lyrics_cache (cacheKey "Sting" "Shape Of My Heart") "Lyrics" 0) 1
        GatewayOutcome.raiseConn =
      Except.ok (FetchResult.mk (some "Lyrics")
        (cachePut lyrics_cache (cacheKey "Sting" "Shape Of My Heart") "Lyrics" 0) 0) :=
  resolve_second_call_cached "Sting" "Shape Of My Heart" lyrics_cache 0 1 "Lyrics"
    GatewayOutcome.raiseConn (by decide) (by decide)

/-- C6: for every gateway failure mode — HTTP error status, connection
error, timeout, other network errors, undecodable body, or a response
of unexpected shape — `fetch_lyrics` returns the upstream-error
outcome (surfaced as the absent result, per the error taxonomy) to its
caller, and on no input whatsoever does an exception propagate past
the function. -/
theorem resolve_upstream_failures (artist title : String) (cache : TTLCache)
    (now : Nat) (gw : GatewayOutcome) :
    (∃ r, fetch_lyrics artist title cache now gw = Except.ok r) ∧
    (isUpstreamFailure gw = true →
      cacheGet cache (cacheKey artist title) now = none →
      fetch_lyrics artist title cache now gw =
        Except.ok (FetchResult.mk none cache 1)) := by
  constructor
  · simp only [fetch_lyrics]
    cases hc : cacheGet cache (cacheKey artist title) now with
    | some lyrics => exact ⟨_, rfl⟩
    | none => cases gw <;> exact ⟨_, rfl⟩
  · intro hfail hmiss
    simp only [fetch_lyrics]
    rw [hmiss]
    cases gw with
    | respLyrics text => simp [isUpstreamFailure] at hfail
    | respError msg => simp [isUpstreamFailure] at hfail
    | respOther => rfl
    | raiseHTTP status => rfl
    | raiseConn => rfl
    | raiseTimeout => rfl
    | raiseRequest => rfl
    | raiseJSON => rfl

/-- C6 witness: a timeout on a cache miss is caught and surfaced as
the absent result with the cache untouched. -/
theorem resolve_upstream_failures_witness :
    fetch_lyrics "Sting" "Shape Of My Heart" lyrics_cache 0 GatewayOutcome.raiseTimeout =
      Except.ok (FetchResult.mk none lyrics_cache 1) :=
  (resolve_upstream_failures "Sting" "Shape Of My Heart" lyrics_cache 0
      GatewayOutcome.raiseTimeout).2 (by decide) (by decide)

/-- C7: resolve mutates the cache only on the path that misses the
cache and receives lyrics text from the gateway; when the gateway
answers with an explicit error signal, resolve returns the not-found
outcome with the cache unchanged, and a later call for the same key
still reaches the gateway. -/
theorem resolve_cache_mutation_frame (artist title : String) (cache : TTLCache)
    (t1 : Nat) (gw : GatewayOutcome) (r : FetchResult)
    (h : fetch_lyrics artist title cache t1 gw = Except.ok r) :
    (r.cache = cache ∨
      (cacheGet cache (cacheKey artist title) t1 = none ∧
        ∃ text, gw = GatewayOutcome.respLyrics text ∧
          r.cache = cachePut cache (cacheKey artist title) text t1)) ∧
    (∀ msg, gw = GatewayOutcome.respError msg →
      cacheGet cache (cacheKey artist title) t1 = none →
      r = FetchResult.mk none cache 1 ∧
      ∀ t2 gw2, t1 ≤ t2 → ∃ r2,
        fetch_lyrics artist title r.cache t2 gw2 = Except.ok r2 ∧
          r2.gatewayCalls = 1) := by
  simp only [fetch_lyrics] at h
  cases hm : cacheGet cache (cacheKey artist title) t1 with
  | some lyrics =>
      rw [hm] at h
      have h2 : Except.ok (FetchResult.mk (some lyrics) cache 0) = Except.ok r := h
      injection h2 with h3
      constructor
      · exact Or.inl (by rw [← h3])
      · intro msg hgw hm2
        exact Option.noConfusion hm2
  | none =>
      rw [hm] at h
      cases gw with
      | respLyrics text =>
          have h2 : Except.ok (FetchResult.mk (some text)
              (cachePut cache (cacheKey artist title) text t1) 1) = Except.ok r := h
          injection h2 with h3
          constructor
          · exact Or.inr ⟨rfl, text, rfl, by rw [← h3]⟩
          · intro msg hgw
            cases hgw
      | respError msg0 =>
          have h2 : Except.ok (FetchResult.mk none cache 1) = Except.ok r := h
          injection h2 with h3
          constructor
          · exact Or.inl (by rw [← h3])
          · intro msg hgw hm2
            refine ⟨h3.symm, ?_⟩
            intro t2 gw2 h12
            have hcache : r.cache = cache := by rw [← h3]
            rw [hcache]
            exact fetch_lyrics_miss_gateway artist title cache t2 gw2
              (cacheGet_none_mono cache (cacheKey artist title) t1 t2 h12 hm)
      | respOther =>
          have h2 : Except.ok (FetchResult.mk none cache 1) = Except.ok r := h
          injection h2 with h3
          exact ⟨Or.inl (by rw [← h3]), fun msg hgw => by cases hgw⟩
      | raiseHTTP status =>
          have h2 : Except.ok (FetchResult.mk none cache 1) = Except.ok r := h
          injection h2 with h3
          exact ⟨Or.inl (by rw [← h3]), fun msg hgw => by cases hgw⟩
      | raiseConn =>
          have h2 : Except.ok (FetchResult.mk none cache 1) = Except.ok r := h
          injection h2 with h3
          exact ⟨Or.inl (by rw [← h3]), fun msg hgw => by cases hgw⟩
      | raiseTimeout =>
          have h2 : Except.ok (FetchResult.mk none cache 1) = Except.ok r := h
          injection h2 with h3
          exact ⟨Or.inl (by rw [← h3]), fun msg hgw => by cases hgw⟩
      | raiseRequest =>
          have h2 : Except.ok (FetchResult.mk none cache 1) = Except.ok r := h
          injection h2 with h3
          exact ⟨Or.inl (by rw [← h3]), fun msg hgw => by cases hgw⟩
      | raiseJSON =>
          have h2 : Except.ok (FetchResult.mk none cache 1) = Except.ok r := h
          injection h2 with h3
          exact ⟨Or.inl (by rw [← h3]), fun msg hgw => by cases hgw⟩

/-- C7 witness: a gateway error signal on a cache miss leaves the
cache unchanged, and the immediately following call reaches the
gateway again. -/
theorem resolve_cache_mutation_frame_witness :
    (FetchResult.mk none lyrics_cache 1).cache = lyrics_cache ∨
      (cacheGet lyrics_cache (cacheKey "a" "b") 0 = none ∧
        ∃ text, GatewayOutcome.respError "not found" = GatewayOutcome.respLyrics text ∧
          (FetchResult.mk none lyrics_cache 1).cache =
            cachePut lyrics_cache (cacheKey "a" "b") text 0) :=
  (resolve_cache_mutation_frame "a" "b" lyrics_cache 0
      (GatewayOutcome.respError "not found") (FetchResult.mk none lyrics_cache 1)
      (by decide)).1

/-- C9: the composite cache key is not injective: the distinct,
already-normalized pairs (artist `a-b`, title `c`) and (artist `a`,
title `b-c`) collide on the key `a-b-c`, and a resolve for the second
pair is answered with lyrics that were cached for the first pair,
without any gateway call. -/
theorem cache_key_collision :
    cacheKey "a-b" "c" = cacheKey "a" "b-c" ∧
    ("a-b", "c") ≠ (("a", "b-c") : String × String) ∧
    normalizeField "a-b" = "a-b" ∧ normalizeField "c" = "c" ∧
    normalizeField "a" = "a" ∧ normalizeField "b-c" = "b-c" ∧
    fetch_lyrics "a" "b-c"
        (cachePut lyrics_cache (cacheKey "a-b" "c") "LYRICS-FOR-AB-C" 0) 0
        GatewayOutcome.raiseConn =
      Except.ok (FetchResult.mk (some "LYRICS-FOR-AB-C")
        (cachePut lyrics_cache (cacheKey "a-b" "c") "LYRICS-FOR-AB-C" 0) 0) := by
  refine ⟨by decide, by decide, by decide, by decide, by decide, by decide, by decide⟩

/-- C1 counterexample: the metadata-apply operation is keyed on
`hasattr`, not on the declared metadata schema. The key `title` is not
one of the metadata schema fields (`bpm`, `mood`, `enriched_genre`),
yet applying the mapping with only a `title` entry writes it to the
record instead of skipping it, refuting the claim that exactly the
schema-member entries are written. -/
theorem metadata_apply_writes_non_schema_key :
    "title" ∉ metadataSchemaFields ∧
    (update_song_metadata demoStore 1 [("title", PyVal.pStr "hacked")]).1 =
      some (mkSongRecord 1 "hacked" "Artist" "Album" "Rock" 2000 none none none) ∧
    (update_song_metadata demoStore 1 [("title", PyVal.pStr "hacked")]).1 ≠
      some (mkSongRecord 1 "Song" "Artist" "Album" "Rock" 2000 none none none) := by
  refine ⟨by decide, by decide, by decide⟩

/-- C1 (amended): for every song present in the store and every field
mapping, the metadata-apply operation writes exactly those entries of
the mapping whose keys are existing attributes of the song record
(its model columns), later entries winning; every key that is not an
attribute of the record is skipped and never appears on the record,
and the operation completes without failure. -/
theorem update_song_metadata_attr_filter (db : Store) (song_id : Int)
    (metadata : List (String × PyVal)) (db_song : Record)
    (hfound : get_song_by_id db song_id = some db_song) :
    ∃ updated,
      update_song_metadata db song_id metadata =
        (some updated, replaceSong db song_id updated) ∧
      ∀ k, recLookup updated k =
        if hasattrRec db_song k then (lastWrite metadata k).or (recLookup db_song k)
        else none := by
  refine ⟨applyMetadataLoop db_song metadata, ?_, ?_⟩
  · simp only [update_song_metadata, hfound]
  · intro k
    rw [applyMetadataLoop_lookup]
    by_cases hh : hasattrRec db_song k
    · rw [if_pos hh, if_pos hh]
    · rw [if_neg hh, if_neg hh]
      exact hasattrRec_false_lookup db_song k (by simpa using hh)

/-- C1 witness: the amended theorem applied to the specification
example mapping, together with the evaluated outcome: the three
recognized fields are set, `unknown_field` is absent from the record,
and no error occurs. -/
theorem update_song_metadata_attr_filter_witness :
    (∃ updated,
      update_song_metadata demoStore 1 exampleMapping =
        (some updated, replaceSong demoStore 1 updated) ∧
      ∀ k, recLookup updated k =
        if hasattrRec (mkSongRecord 1 "Song" "Artist" "Album" "Rock" 2000 none none none) k then
          (lastWrite exampleMapping k).or
            (recLookup (mkSongRecord 1 "Song" "Artist" "Album" "Rock" 2000 none none none) k)
        else none) ∧
    (update_song_metadata demoStore 1 exampleMapping).1 =
      some (mkSongRecord 1 "Song" "Artist" "Album" "Rock" 2000 (some 144)
        (some "Epic") (some "Progressive Rock")) ∧
    ((update_song_metadata demoStore 1 exampleMapping).1.map
      (fun r => recLookup r "unknown_field")) = some none :=
  ⟨update_song_metadata_attr_filter demoStore 1 exampleMapping
      (mkSongRecord 1 "Song" "Artist" "Album" "Rock" 2000 none none none) (by decide),
   by decide, by decide⟩

/-- C10: the full-replace update writes every field of the supplied
complete song schema, including the metadata fields, which default to
absent; hence a full replace whose body omits `bpm`, `mood` and
`enriched_genre` resets previously enriched metadata to absent. -/
theorem update_existing_song_resets_metadata (db : Store) (song_id : Int)
    (s : SongSchema) (db_song : Record)
    (hfound : get_song_by_id db song_id = some db_song) :
    ∃ updated,
      update_existing_song db song_id s =
        (some updated, replaceSong db song_id updated) ∧
      recLookup updated "id" = some (PyVal.pInt s.id) ∧
      recLookup updated "title" = some (PyVal.pStr s.title) ∧
      recLookup updated "artist" = some (PyVal.pStr s.artist) ∧
      recLookup updated "album" = some (PyVal.pStr s.album) ∧
      recLookup updated "genre" = some (PyVal.pStr s.genre) ∧
      recLookup updated "release_year" = some (PyVal.pInt s.release_year) ∧
      recLookup updated "bpm" = some (optIntVal s.bpm) ∧
      recLookup updated "mood" = some (optStrVal s.mood) ∧
      recLookup updated "enriched_genre" = some (optStrVal s.enriched_genre) ∧
      (s.bpm = none → recLookup updated "bpm" = some PyVal.pNone) ∧
      (s.mood = none → recLookup updated "mood" = some PyVal.pNone) ∧
      (s.enriched_genre = none → recLookup updated "enriched_genre" = some PyVal.pNone) := by
  refine ⟨(songSchemaDict s).foldl (fun acc p => setattrRec acc p.1 p.2) db_song, ?_, ?_⟩
  · simp only [update_existing_song, hfound]
  · have hkey : ∀ k w, lastWrite (songSchemaDict s) k = some w →
        recLookup ((songSchemaDict s).foldl (fun acc p => setattrRec acc p.1 p.2) db_song) k =
          some w := by
      intro k w hw
      rw [setattrFold_lookup, hw]
      rfl
    refine ⟨hkey "id" _ rfl, hkey "title" _ rfl, hkey "artist" _ rfl, hkey "album" _ rfl,
      hkey "genre" _ rfl, hkey "release_year" _ rfl, hkey "bpm" _ rfl, hkey "mood" _ rfl,
      hkey "enriched_genre" _ rfl, ?_, ?_, ?_⟩
    · intro hb
      have := hkey "bpm" (optIntVal s.bpm) rfl
      rw [hb] at this
      exact this
    · intro hb
      have := hkey "mood" (optStrVal s.mood) rfl
      rw [hb] at this
      exact this
    · intro hb
      have := hkey "enriched_genre" (optStrVal s.enriched_genre) rfl
      rw [hb] at this
      exact this

/-- C10 witness: a complete PUT body for song 7 that omits the
enriched metadata resets `bpm`, `mood` and `enriched_genre` to absent
on a record that had them set. -/
theorem update_existing_song_resets_metadata_witness :
    ∃ updated,
      update_existing_song enrichedStore 7 putBody =
        (some updated, replaceSong enrichedStore 7 updated) ∧
      recLookup updated "id" = some (PyVal.pInt putBody.id) ∧
      recLookup updated "title" = some (PyVal.pStr putBody.title) ∧
      recLookup updated "artist" = some (PyVal.pStr putBody.artist) ∧
      recLookup updated "album" = some (PyVal.pStr putBody.album) ∧
      recLookup updated "genre" = some (PyVal.pStr putBody.genre) ∧
      recLookup updated "release_year" = some (PyVal.pInt putBody.release_year) ∧
      recLookup updated "bpm" = some (optIntVal putBody.bpm) ∧
      recLookup updated "mood" = some (optStrVal putBody.mood) ∧
      recLookup updated "enriched_genre" = some (optStrVal putBody.enriched_genre) ∧
      (putBody.bpm = none → recLookup updated "bpm" = some PyVal.pNone) ∧
      (putBody.mood = none → recLookup updated "mood" = some PyVal.pNone) ∧
      (putBody.enriched_genre = none →
        recLookup updated "enriched_genre" = some PyVal.pNone) :=
  update_existing_song_resets_metadata enrichedStore 7 putBody
    (mkSongRecord 7 "Imagine" "John Lennon" "Imagine" "Rock" 1971
      (some 75) (some "Peaceful") (some "Soft Rock")) (by decide)

end SongCatalog
